import Mathlib

/-!
A shallow embedding of the classification core of the `reddit-analysis`
repository (`src/analyze/mod.rs` and `src/reddit/analyze.rs`), together with
theorems about its decision logic, pool-acquisition loop, tree analyzer,
progress counter and aggregator statistics.

Rust `f64` scores are modelled as rationals (`ℚ`); all score arithmetic in the
source is comparison, subtraction from 1.0 and division of small integers, so
the rational model is exact.  Rust `Result` is modelled as `Except`, and the
external zero-shot scorer is modelled as an opaque list of scored labels (one
per requested candidate label), exactly the shape `predict` returns.
-/

deriving instance DecidableEq for Except

namespace RedditAnalysis

/-- Error type of `src/analyze/mod.rs` (`AnalysisError`). -/
inductive AnalysisError where
  | SentimentError (msg : String)
  | ZeroShotError (msg : String)
  | LabelError (msg : String)
deriving DecidableEq, Repr

/-- The `Attitude` enum of `src/analyze/mod.rs`. -/
inductive Attitude where
  | Inquisitive
  | Praise
  | Condemnation
  | Agreement
  | Complaint
  | Mocking
  | Disagreement
  | Annoyed
  | Neutral
deriving DecidableEq, Repr, Fintype

namespace Attitude

/-- `Attitude::TRESHOLD` (0.3). -/
def TRESHOLD : ℚ := 3/10

/-- `Attitude::VALUES`. -/
def VALUES : List Attitude :=
  [Neutral, Inquisitive, Praise, Condemnation, Agreement, Complaint, Mocking,
   Disagreement, Annoyed]

/-- `Attitude::LABELS`: the label strings handed to the scorer.  Note that the
fallback variant `Neutral` *does* have a label (`"neutral"`) in this list. -/
def LABELS : List String :=
  ["question", "praise", "condemnation", "agreement", "complaint", "mocking",
   "disagreement", "annoyed", "neutral"]

/-- `Attitude::from_label`.  A Rust `match` on string literals is a sequential
comparison against each pattern, embedded here as an `if`-chain in the order of
the source's arms. -/
def from_label (label : String) : Except AnalysisError Attitude :=
  if label = "question" then .ok .Inquisitive
  else if label = "praise" then .ok .Praise
  else if label = "agreement" then .ok .Agreement
  else if label = "complaint" then .ok .Complaint
  else if label = "mocking" then .ok .Mocking
  else if label = "disagreement" then .ok .Disagreement
  else if label = "annoyed" then .ok .Annoyed
  else if label = "condemnation" then .ok .Condemnation
  else if label = "neutral" then .ok .Neutral
  else .error (.LabelError ("unknown label: " ++ label))

/-- `Attitude::positivity`. -/
def positivity : Attitude → ℚ
  | .Inquisitive => 1/2
  | .Praise => 1
  | .Agreement => 8/10
  | .Complaint => 0
  | .Mocking => 0
  | .Disagreement => 25/100
  | .Annoyed => 0
  | .Neutral => 1/2
  | .Condemnation => 0

/-- `Attitude::negativity`. -/
def negativity (a : Attitude) : ℚ := 1 - a.positivity

/-- `Attitude::agreement`. -/
def agreement : Attitude → ℚ
  | .Inquisitive => 1/2
  | .Praise => 8/10
  | .Agreement => 1
  | .Complaint => 3/10
  | .Mocking => 1/2
  | .Disagreement => 0
  | .Annoyed => 2/10
  | .Neutral => 1/2
  | .Condemnation => 0

/-- Modelled from the spec: the forward variant→label mapping `label_for`.
The source defines only the inverse direction (`from_label` together with the
`LABELS` table); this is the evident forward reading of those match arms. -/
def labelFor : Attitude → Option String
  | .Inquisitive => some "question"
  | .Praise => some "praise"
  | .Condemnation => some "condemnation"
  | .Agreement => some "agreement"
  | .Complaint => some "complaint"
  | .Mocking => some "mocking"
  | .Disagreement => some "disagreement"
  | .Annoyed => some "annoyed"
  | .Neutral => some "neutral"

end Attitude

/-- The `Subject` enum of `src/analyze/mod.rs`. -/
inductive Subject where
  | Politics
  | Religion
  | Science
  | Food
  | Animals
  | Sports
  | Music
  | Movies
  | Joke
  | Technology
  | Discussion
  | Personal
  | Other
deriving DecidableEq, Repr, Fintype

namespace Subject

/-- `Subject::TRESHOLD` (0.3). -/
def TRESHOLD : ℚ := 3/10

/-- `Subject::VALUES`. -/
def VALUES : List Subject :=
  [Other, Politics, Religion, Science, Food, Animals, Sports, Music, Movies,
   Joke, Technology, Discussion, Personal]

/-- `Subject::LABELS`: 12 labels for the 12 non-`Other` variants; `Other` has
no label. -/
def LABELS : List String :=
  ["politics", "religion", "science", "food", "animals", "sports", "music",
   "movies", "joke", "technology", "discussion", "me"]

/-- `Subject::from_label`, embedded like `Attitude.from_label`. -/
def from_label (label : String) : Except AnalysisError Subject :=
  if label = "politics" then .ok .Politics
  else if label = "religion" then .ok .Religion
  else if label = "science" then .ok .Science
  else if label = "food" then .ok .Food
  else if label = "animals" then .ok .Animals
  else if label = "sports" then .ok .Sports
  else if label = "music" then .ok .Music
  else if label = "movies" then .ok .Movies
  else if label = "joke" then .ok .Joke
  else if label = "technology" then .ok .Technology
  else if label = "discussion" then .ok .Discussion
  else if label = "me" then .ok .Personal
  else .error (.LabelError ("unknown label: " ++ label))

/-- Modelled from the spec: the forward variant→label mapping `label_for`;
`Other` is the fallback and has no label. -/
def labelFor : Subject → Option String
  | .Politics => some "politics"
  | .Religion => some "religion"
  | .Science => some "science"
  | .Food => some "food"
  | .Animals => some "animals"
  | .Sports => some "sports"
  | .Music => some "music"
  | .Movies => some "movies"
  | .Joke => some "joke"
  | .Technology => some "technology"
  | .Discussion => some "discussion"
  | .Personal => some "me"
  | .Other => none

end Subject

/-- The `Analysis` struct of `src/analyze/mod.rs`. -/
structure Analysis where
  attitude : Attitude
  attitude_confidence : ℚ
  subject : Subject
  subject_confidence : ℚ
deriving DecidableEq, Repr

/-- `impl Default for Analysis`. -/
def Analysis.default : Analysis :=
  { attitude := .Neutral
    attitude_confidence := 0
    subject := .Other
    subject_confidence := 0 }

/-- A scored label as returned by the zero-shot scorer's `predict`
(rust_bert's `Label`: a text and a score). -/
structure Label where
  text : String
  score : ℚ
deriving DecidableEq, Repr

/-- The descending-by-score comparison used by both `sort_by` calls in
`analyze` (`b.score.partial_cmp(&a.score)`). -/
def scoreDesc (a b : Label) : Bool := b.score ≤ a.score

/-- Effects performed by one `analyze` call: how many scorer (`predict`)
invocations happened and how many pool slots were acquired. -/
structure Effects where
  scorerCalls : Nat
  poolAcquisitions : Nat
deriving DecidableEq, Repr

/-- `impl Analyze for &str` (`src/analyze/mod.rs`, lines 348-409), with the
scorer treated as an opaque capability: `subjects` and `attitudes` are the two
`predict` outputs (one scored label per candidate label).  Alongside the
result we record the effects performed: the empty-text branch returns before
the pool or the scorer is touched; every other path acquires one pool slot and
calls `predict` twice on it.

Rust's `bool::then_some` evaluates its argument eagerly, so
`from_label(...)?` runs — and can fail — before the threshold test selects a
branch; the embedding binds `from_label` first for the same reason.  Indexing
`attitudes[0]`/`subjects[0]` into an empty `predict` output would panic in
Rust; that impossible-by-contract case is modelled as a `ZeroShotError`. -/
def analyzeWithEffects (text : String) (subjects attitudes : List Label) :
    Except AnalysisError Analysis × Effects :=
  if text = "" then (.ok Analysis.default, ⟨0, 0⟩)
  else
    let sortedSubjects := subjects.mergeSort scoreDesc
    let sortedAttitudes := attitudes.mergeSort scoreDesc
    match sortedAttitudes, sortedSubjects with
    | topA :: _, topS :: _ =>
      let result : Except AnalysisError Analysis := do
        let attVariant ← Attitude.from_label topA.text
        let (attitude, attitude_confidence) :=
          if topA.score > Attitude.TRESHOLD then (attVariant, topA.score)
          else (.Neutral, 1 - topA.score)
        let subjVariant ← Subject.from_label topS.text
        let (subject, subject_confidence) :=
          if topS.score > Subject.TRESHOLD then (subjVariant, topS.score)
          else (.Other, 1 - topS.score)
        pure { attitude, attitude_confidence, subject, subject_confidence }
      (result, ⟨2, 1⟩)
    | _, _ => (.error (.ZeroShotError "predict returned no scored labels"), ⟨2, 1⟩)

/-- The value computed by `analyze`, without the effect bookkeeping. -/
def analyze (text : String) (subjects attitudes : List Label) :
    Except AnalysisError Analysis :=
  (analyzeWithEffects text subjects attitudes).1

/-! ## The pool-acquisition loop

The control skeleton of the `loop` in `analyze` (lines 363-408): a rotating
cursor `i` over an `n`-slot pool; each iteration makes one non-blocking
`try_lock` attempt on slot `i`; on success the loop returns immediately (the
cursor is not advanced further), on failure the cursor advances modulo `n` and
the thread sleeps 100 ms before the next attempt.  The outcomes of the
successive `try_lock` attempts — decided by the other threads' behaviour — are
the input list `attempts`; the loop runs forever on an all-failure schedule,
so the embedding returns `none` when the attempt list is exhausted without a
success.  The result of a successful run is the slot index acquired together
with the number of sleeps performed before acquisition. -/
def poolLoopFrom (n : Nat) : Nat → List Bool → Option (Nat × Nat)
  | _, [] => none
  | i, ok :: rest =>
    if ok then some (i, 0)
    else
      match poolLoopFrom n ((i + 1) % n) rest with
      | none => none
      | some (slot, sleeps) => some (slot, sleeps + 1)

/-- The acquisition loop as entered by `analyze`: cursor starts at 0. -/
def poolLoop (n : Nat) (attempts : List Bool) : Option (Nat × Nat) :=
  poolLoopFrom n 0 attempts

/-- Modelled from the spec: the sleep count the spec's pool-acquisition
algorithm performs — one sleep per *full cycle of `n` consecutive failures*,
i.e. `failures / n` sleeps after `failures` failed attempts. -/
def specSleeps (n failures : Nat) : Nat := failures / n

/-! ## The input tree, the result tree, and the tree analyzer

`src/reddit/analyze.rs`.  Posts and comments both expose `content()`,
`score()` and `replies()` (the `Submission` trait), so the input is one tree
type.  Classification of a node's own text is `self.content().analyze()`; in
the embedding it is an opaque `classify : String → Except AnalysisError
Analysis` oracle (the composition of the pool, the scorer and the decision
logic above). -/

/-- An input tree node (`Submission` trait view of `Post`/`Comment`). -/
inductive Submission where
  | node (content : String) (score : Int) (replies : List Submission)
deriving Repr

/-- `Submission::content`. -/
def Submission.content : Submission → String
  | .node c _ _ => c

/-- `Submission::replies`. -/
def Submission.replies : Submission → List Submission
  | .node _ _ rs => rs

/-- The result tree (`SubmissionAnalysis` struct). -/
inductive SubmissionAnalysis where
  | mk (analysis : Analysis) (children : List SubmissionAnalysis)
deriving Repr

/-- Field accessor `analysis` of `SubmissionAnalysis`. -/
def SubmissionAnalysis.analysis : SubmissionAnalysis → Analysis
  | .mk a _ => a

/-- Field accessor `children` of `SubmissionAnalysis`. -/
def SubmissionAnalysis.children : SubmissionAnalysis → List SubmissionAnalysis
  | .mk _ cs => cs

mutual

/-- `Submission::size` (lines 138-140): `(content != "") as usize` plus the
sizes of all replies — empty-content nodes are not counted, but their reply
subtrees still are. -/
def Submission.size : Submission → Nat
  | .node c _ rs => (if c = "" then 0 else 1) + Submission.sizeList rs

/-- Sum of `Submission.size` over a reply list. -/
def Submission.sizeList : List Submission → Nat
  | [] => 0
  | r :: rs => Submission.size r + Submission.sizeList rs

end

mutual

/-- `SubmissionAnalysis::size` (lines 128-130): children sizes summed, plus 1
for the node itself.  This is also the length of any flattening of the result
tree. -/
def SubmissionAnalysis.size : SubmissionAnalysis → Nat
  | .mk _ cs => SubmissionAnalysis.sizeList cs + 1

/-- Sum of `SubmissionAnalysis.size` over a child list. -/
def SubmissionAnalysis.sizeList : List SubmissionAnalysis → Nat
  | [] => 0
  | c :: cs => SubmissionAnalysis.size c + SubmissionAnalysis.sizeList cs

end

mutual

/-- `AnalyzeSubmission::analyze_submission` (lines 181-198), also counting the
`ANALYZED_COMMENTS` increments it performs.  For a node: the replies with
empty content are filtered out; the remaining replies are analyzed
recursively and the failed ones dropped (`.filter(|x| x.is_ok())` removes
every `Err` before `collect`, so no child error ever reaches the parent);
then the node's own content is classified with `?`-propagation, and on
success the counter is incremented once.  Increments made inside a child's
recursive call happen before the child's own classification is known to fail,
so they are counted whether or not the child survives. -/
def analyzeSubmissionAux (classify : String → Except AnalysisError Analysis) :
    Submission → Except AnalysisError SubmissionAnalysis × Nat
  | .node c _ rs =>
    let (children, n) := analyzeChildrenAux classify rs
    match classify c with
    | .error e => (.error e, n)
    | .ok analysis => (.ok (.mk analysis children), n + 1)

/-- The child pipeline of `analyze_submission`: filter out empty-content
replies, analyze the rest, keep the successful results in order, and sum the
counter increments of every recursive call made. -/
def analyzeChildrenAux (classify : String → Except AnalysisError Analysis) :
    List Submission → List SubmissionAnalysis × Nat
  | [] => ([], 0)
  | r :: rs =>
    let (rest, n₂) := analyzeChildrenAux classify rs
    if r.content = "" then (rest, n₂)
    else
      match analyzeSubmissionAux classify r with
      | (.ok a, n₁) => (a :: rest, n₁ + n₂)
      | (.error _, n₁) => (rest, n₁ + n₂)

end

/-- The result of `analyze_submission`. -/
def analyzeSubmission (classify : String → Except AnalysisError Analysis)
    (t : Submission) : Except AnalysisError SubmissionAnalysis :=
  (analyzeSubmissionAux classify t).1

/-- The value of the `ANALYZED_COMMENTS` counter after running
`analyze_submission` on `t` starting from a counter value of 0. -/
def analyzedComments (classify : String → Except AnalysisError Analysis)
    (t : Submission) : Nat :=
  (analyzeSubmissionAux classify t).2

mutual

/-- Every node of the tree, the root included, has non-empty content. -/
def Submission.allNonEmpty : Submission → Bool
  | .node c _ rs => (!(c = "")) && Submission.allNonEmptyList rs

/-- `Submission.allNonEmpty` over a reply list. -/
def Submission.allNonEmptyList : List Submission → Bool
  | [] => true
  | r :: rs => Submission.allNonEmpty r && Submission.allNonEmptyList rs

end

mutual

/-- `traverse` from `src/bins/graph.rs` (lines 11-15): flatten a result tree
post-order, applying `f` to every node — children first, then the node. -/
def traverse (f : SubmissionAnalysis → α) : SubmissionAnalysis → List α
  | .mk a cs => traverseList f cs ++ [f (.mk a cs)]

/-- `traverse` mapped over a child list and concatenated (the
`.map(|child| traverse(child, f)).flatten()` pipeline). -/
def traverseList (f : SubmissionAnalysis → α) : List SubmissionAnalysis → List α
  | [] => []
  | c :: cs => traverse f c ++ traverseList f cs

end

/-- `SubmissionAnalysis::divisiveness` (lines 66-82): the counting loop over
the children followed by the `total == 0` test and the `1.0 - |p - n| /
total` formula.  The loop is embedded as a left fold carrying the two
counters. -/
def SubmissionAnalysis.divisiveness (s : SubmissionAnalysis) : ℚ :=
  let counts := s.children.foldl
    (fun (pn : ℤ × ℤ) child =>
      if child.analysis.attitude.agreement > 1/2 then (pn.1 + 1, pn.2)
      else if child.analysis.attitude.agreement < 1/2 then (pn.1, pn.2 + 1)
      else pn)
    (0, 0)
  let positive := counts.1
  let negative := counts.2
  let total := positive + negative
  if total = 0 then 0
  else 1 - |((positive : ℚ) - (negative : ℚ))| / (total : ℚ)

/-! ## Helper lemmas -/

/-- A string outside `Attitude.LABELS` falls through every arm of
`Attitude.from_label` to the error arm. -/
theorem attitude_label_unknown_error {s : String} (hs : s ∉ Attitude.LABELS) :
    Attitude.from_label s = .error (.LabelError ("unknown label: " ++ s)) := by
  simp only [Attitude.LABELS, List.mem_cons, List.not_mem_nil, or_false,
    not_or] at hs
  obtain ⟨h₁, h₂, h₃, h₄, h₅, h₆, h₇, h₈, h₉⟩ := hs
  simp [Attitude.from_label, h₁, h₂, h₃, h₄, h₅, h₆, h₇, h₈, h₉]

/-- A string outside `Subject.LABELS` falls through every arm of
`Subject.from_label` to the error arm. -/
theorem subject_label_unknown_error {s : String} (hs : s ∉ Subject.LABELS) :
    Subject.from_label s = .error (.LabelError ("unknown label: " ++ s)) := by
  simp only [Subject.LABELS, List.mem_cons, List.not_mem_nil, or_false,
    not_or] at hs
  obtain ⟨h₁, h₂, h₃, h₄, h₅, h₆, h₇, h₈, h₉, h₁₀, h₁₁, h₁₂⟩ := hs
  simp [Subject.from_label, h₁, h₂, h₃, h₄, h₅, h₆, h₇, h₈, h₉, h₁₀, h₁₁, h₁₂]

/-- Every string of `Attitude.LABELS` is recognised by `Attitude.from_label`. -/
theorem attitude_label_known_ok :
    ∀ ℓ ∈ Attitude.LABELS, ∃ v, Attitude.from_label ℓ = .ok v := by decide

/-- Every string of `Subject.LABELS` is recognised by `Subject.from_label`. -/
theorem subject_label_known_ok :
    ∀ ℓ ∈ Subject.LABELS, ∃ v, Subject.from_label ℓ = .ok v := by decide

/-- The head of the descending `mergeSort` used by `analyze` carries a
maximal score. -/
theorem mergeSort_head_le {l rest : List Label} {x : Label}
    (h : l.mergeSort scoreDesc = x :: rest) :
    ∀ y ∈ l, y.score ≤ x.score := by
  have htrans : ∀ a b c : Label, scoreDesc a b = true → scoreDesc b c = true →
      scoreDesc a c = true := by
    intro a b c hab hbc
    simp only [scoreDesc, decide_eq_true_eq] at *
    exact le_trans hbc hab
  have htotal : ∀ a b : Label, (scoreDesc a b || scoreDesc b a) = true := by
    intro a b
    simp only [scoreDesc, Bool.or_eq_true, decide_eq_true_eq]
    exact le_total b.score a.score
  have hs := List.sorted_mergeSort htrans htotal l
  rw [h] at hs
  have hp := List.mergeSort_perm l scoreDesc
  rw [h] at hp
  intro y hy
  have hy' : y ∈ x :: rest := hp.symm.subset hy
  rcases List.mem_cons.mp hy' with rfl | hmem
  · exact le_refl _
  · have := (List.pairwise_cons.mp hs).1 y hmem
    simpa [scoreDesc] using this

/-! ## Claims -/

/-- **C6.** Analyzing the empty string returns exactly the default `Analysis`
(`Neutral` with confidence 0, `Other` with confidence 0) and performs no
scorer invocation and no pool-slot acquisition, whatever the scorer would
have answered. -/
theorem empty_text_returns_default_without_effects :
    ∀ subjects attitudes : List Label,
      analyzeWithEffects "" subjects attitudes =
        (.ok Analysis.default, ⟨0, 0⟩) := by
  intro subjects attitudes
  rfl

/-- **C2, counterexample.** The claim says the fallback variant has no entry
in the label list sent to the scorer; but `Attitude.LABELS` contains
`"neutral"`, and `Attitude.from_label` maps it to the fallback `Neutral`, so
for the Attitude schema the label→variant mapping is onto *all* variants, not
a bijection with the non-fallback ones. -/
theorem attitude_fallback_has_label :
    "neutral" ∈ Attitude.LABELS ∧
      Attitude.from_label "neutral" = .ok .Neutral := by decide

/-- **C2, amended.** For the Subject schema the claim holds as stated: the
fallback `Other` has no entry in `Subject.LABELS` and `from_label` is a
bijection between `Subject.LABELS` and the non-`Other` variants.  For the
Attitude schema the fallback `Neutral` *does* have the entry `"neutral"`, and
`from_label` is a bijection between `Attitude.LABELS` and *all nine* variants,
`Neutral` included. -/
theorem label_bijection_amended :
    ((∀ ℓ ∈ Subject.LABELS, ∃ v, Subject.from_label ℓ = .ok v ∧ v ≠ .Other) ∧
     (∀ ℓ₁ ∈ Subject.LABELS, ∀ ℓ₂ ∈ Subject.LABELS,
        Subject.from_label ℓ₁ = Subject.from_label ℓ₂ → ℓ₁ = ℓ₂) ∧
     (∀ v : Subject, v ≠ .Other →
        ∃ ℓ ∈ Subject.LABELS, Subject.from_label ℓ = .ok v)) ∧
    (("neutral" ∈ Attitude.LABELS ∧
        Attitude.from_label "neutral" = .ok .Neutral) ∧
     (∀ ℓ ∈ Attitude.LABELS, ∃ v, Attitude.from_label ℓ = .ok v) ∧
     (∀ ℓ₁ ∈ Attitude.LABELS, ∀ ℓ₂ ∈ Attitude.LABELS,
        Attitude.from_label ℓ₁ = Attitude.from_label ℓ₂ → ℓ₁ = ℓ₂) ∧
     (∀ v : Attitude, ∃ ℓ ∈ Attitude.LABELS, Attitude.from_label ℓ = .ok v)) := by
  decide

/-- **C9.** `from_label` inverts the variant→label mapping on the non-fallback
domain, and rejects any string outside the label set with a `LabelError`
carrying the offending label. -/
theorem from_label_inverse_of_labelFor :
    (∀ v : Attitude, v ≠ .Neutral →
       ∃ ℓ, Attitude.labelFor v = some ℓ ∧ Attitude.from_label ℓ = .ok v) ∧
    (∀ v : Subject, v ≠ .Other →
       ∃ ℓ, Subject.labelFor v = some ℓ ∧ Subject.from_label ℓ = .ok v) ∧
    (∀ s : String, s ∉ Attitude.LABELS →
       Attitude.from_label s = .error (.LabelError ("unknown label: " ++ s))) ∧
    (∀ s : String, s ∉ Subject.LABELS →
       Subject.from_label s = .error (.LabelError ("unknown label: " ++ s))) := by
  refine ⟨by decide, by decide, ?_, ?_⟩
  · intro s hs
    exact attitude_label_unknown_error hs
  · intro s hs
    exact subject_label_unknown_error hs

/-- **C3, counterexample.** In the acquisition loop a sleep follows *every*
failed `try_lock`, not only a full cycle of `N` failures: with the 4-slot
pool, one failed attempt followed by a success already performs one sleep,
where the claimed full-cycle rule (`specSleeps`) performs zero. -/
theorem pool_sleeps_after_single_failure :
    poolLoop 4 [false, true] = some (1, 1) ∧ specSleeps 4 1 = 0 ∧
      (1 : Nat) ≠ 0 := by decide

/-- The loop with cursor `i < n`: `k` consecutive failures followed by a
success acquire slot `(i + k) % n` after exactly `k` sleeps. -/
theorem poolLoopFrom_replicate (n : Nat) (rest : List Bool) :
    ∀ k i : Nat, i < n →
      poolLoopFrom n i (List.replicate k false ++ true :: rest) =
        some ((i + k) % n, k) := by
  intro k
  induction k with
  | zero =>
    intro i hi
    simp [poolLoopFrom, Nat.mod_eq_of_lt hi]
  | succ k ih =>
    intro i hi
    have hpos : 0 < n := by omega
    have hlt : (i + 1) % n < n := Nat.mod_lt _ hpos
    simp only [List.replicate_succ, List.cons_append, poolLoopFrom,
      Bool.false_eq_true, if_false, List.append_eq]
    rw [ih ((i + 1) % n) hlt]
    have harith : ((i + 1) % n + k) % n = (i + (k + 1)) % n := by
      rw [Nat.mod_add_mod]
      congr 1
      omega
    simp [harith]

/-- **C3, amended.** The backoff sleep occurs after *each individual* failed
non-blocking claim: a run of `k` failed attempts followed by a successful one
performs exactly `k` sleeps (one per failure, `specSleeps` would predict
`k / N`), and acquires the slot the cursor reached at the successful attempt
(`k % N`), the cursor not being advanced after the success. -/
theorem pool_sleep_per_failed_attempt (n k : Nat) (rest : List Bool)
    (hn : 0 < n) :
    poolLoop n (List.replicate k false ++ true :: rest) = some (k % n, k) := by
  have := poolLoopFrom_replicate n rest k 0 hn
  simpa [poolLoop] using this

/-- Witness for the amended C3 theorem: 6 failures on the 4-slot pool, then a
success: 6 sleeps, slot 2. -/
theorem pool_sleep_per_failed_attempt_witness :
    poolLoop 4 (List.replicate 6 false ++ true :: []) = some (2, 6) := by
  have h := pool_sleep_per_failed_attempt 4 6 [] (by decide)
  simpa using h

/-- **C1.** For a non-empty text, per schema: when the maximal score is
strictly above the 0.3 threshold the resulting variant is `from_label` of the
top label and the confidence is exactly that score; otherwise the variant is
the schema's fallback (`Neutral` / `Other`) and the confidence is exactly
`1 - top score`.  `topA`/`topS` are the heads of the descending sorts, and
the theorem also records that they carry maximal scores. -/
theorem threshold_decision (text : String) (subjects attitudes : List Label)
    (topA topS : Label) (restA restS : List Label)
    (htext : text ≠ "")
    (hA : attitudes.mergeSort scoreDesc = topA :: restA)
    (hS : subjects.mergeSort scoreDesc = topS :: restS)
    (hAmem : topA.text ∈ Attitude.LABELS)
    (hSmem : topS.text ∈ Subject.LABELS) :
    ∃ r : Analysis, analyze text subjects attitudes = .ok r ∧
      (∀ y ∈ attitudes, y.score ≤ topA.score) ∧
      (∀ y ∈ subjects, y.score ≤ topS.score) ∧
      (if topA.score > Attitude.TRESHOLD
        then Attitude.from_label topA.text = .ok r.attitude ∧
          r.attitude_confidence = topA.score
        else r.attitude = .Neutral ∧
          r.attitude_confidence = 1 - topA.score) ∧
      (if topS.score > Subject.TRESHOLD
        then Subject.from_label topS.text = .ok r.subject ∧
          r.subject_confidence = topS.score
        else r.subject = .Other ∧
          r.subject_confidence = 1 - topS.score) := by
  obtain ⟨va, hva⟩ := attitude_label_known_ok topA.text hAmem
  obtain ⟨vs, hvs⟩ := subject_label_known_ok topS.text hSmem
  have hmain : analyze text subjects attitudes = .ok
      { attitude := if topA.score > Attitude.TRESHOLD then va else .Neutral
        attitude_confidence := if topA.score > Attitude.TRESHOLD
          then topA.score else 1 - topA.score
        subject := if topS.score > Subject.TRESHOLD then vs else .Other
        subject_confidence := if topS.score > Subject.TRESHOLD
          then topS.score else 1 - topS.score } := by
    simp only [analyze, analyzeWithEffects, if_neg htext, hA, hS]
    rw [hva, hvs]
    by_cases hta : topA.score > Attitude.TRESHOLD <;>
      by_cases hts : topS.score > Subject.TRESHOLD <;>
      simp [hta, hts] <;> rfl
  refine ⟨_, hmain, mergeSort_head_le hA, mergeSort_head_le hS, ?_, ?_⟩
  · by_cases hta : topA.score > Attitude.TRESHOLD <;> simp [hta, hva]
  · by_cases hts : topS.score > Subject.TRESHOLD <;> simp [hts, hvs]

/-- Witness for C1: a concrete run whose attitude score (1/4) falls to the
fallback branch and whose subject score (1/2) clears the threshold. -/
theorem threshold_decision_witness :
    ∃ r : Analysis,
      analyze "hello" [⟨"politics", 1/2⟩] [⟨"praise", 1/4⟩] = .ok r ∧
        r.attitude = .Neutral ∧ r.attitude_confidence = 3/4 ∧
        r.subject = .Politics ∧ r.subject_confidence = 1/2 := by
  obtain ⟨r, hr, -, -, hatt, hsub⟩ := threshold_decision "hello"
    [⟨"politics", 1/2⟩] [⟨"praise", 1/4⟩] ⟨"praise", 1/4⟩ ⟨"politics", 1/2⟩
    [] [] (by decide) (List.mergeSort_singleton ..) (List.mergeSort_singleton ..)
    (by decide) (by decide)
  rw [if_neg (by norm_num [Attitude.TRESHOLD])] at hatt
  rw [if_pos (by norm_num [Subject.TRESHOLD])] at hsub
  refine ⟨r, hr, hatt.1, by rw [hatt.2]; norm_num, ?_, by simpa using hsub.2⟩
  have := hsub.1
  simp [Subject.from_label] at this
  exact this.symm

/-- **C10.** The label lookup on the top-scored label is evaluated eagerly
(`bool::then_some` evaluates its argument in both branches), so an unknown
top label makes `analyze` fail with a `LabelError` even when its score is at
or below the threshold — the fallback variant is never produced in that
case.  The first conjunct covers an unknown attitude label (any score), the
second an unknown subject label (any score) when the attitude label is
known. -/
theorem unknown_label_errors_even_below_threshold (text : String)
    (subjects attitudes : List Label) (topA topS : Label)
    (restA restS : List Label)
    (htext : text ≠ "")
    (hA : attitudes.mergeSort scoreDesc = topA :: restA)
    (hS : subjects.mergeSort scoreDesc = topS :: restS) :
    (topA.text ∉ Attitude.LABELS →
      analyze text subjects attitudes =
        .error (.LabelError ("unknown label: " ++ topA.text))) ∧
    (topA.text ∈ Attitude.LABELS → topS.text ∉ Subject.LABELS →
      analyze text subjects attitudes =
        .error (.LabelError ("unknown label: " ++ topS.text))) := by
  constructor
  · intro hbad
    simp only [analyze, analyzeWithEffects, if_neg htext, hA, hS]
    rw [attitude_label_unknown_error hbad]
    rfl
  · intro hgood hbad
    obtain ⟨va, hva⟩ := attitude_label_known_ok topA.text hgood
    simp only [analyze, analyzeWithEffects, if_neg htext, hA, hS]
    rw [hva, subject_label_unknown_error hbad]
    by_cases hta : topA.score > Attitude.TRESHOLD <;> simp [hta] <;> rfl

/-- Witness for C10: an unknown attitude label with score 1/10, well below
the threshold, still produces a `LabelError` instead of the fallback. -/
theorem unknown_label_errors_witness :
    analyze "hello" [⟨"politics", 1/2⟩] [⟨"bogus", 1/10⟩] =
      .error (.LabelError ("unknown label: " ++ "bogus")) := by
  have h := (unknown_label_errors_even_below_threshold "hello"
    [⟨"politics", 1/2⟩] [⟨"bogus", 1/10⟩] ⟨"bogus", 1/10⟩ ⟨"politics", 1/2⟩
    [] [] (by decide) (List.mergeSort_singleton ..)
    (List.mergeSort_singleton ..)).1
  exact h (by decide)

/-! ## Tree analyzer: induction principles and helpers -/

/-- Mutual induction for `Submission` and its reply lists. -/
theorem submission_mutual_induction {P : Submission → Prop}
    {Q : List Submission → Prop}
    (hnode : ∀ (c : String) (s : ℤ) (rs : List Submission),
      Q rs → P (.node c s rs))
    (hnil : Q [])
    (hcons : ∀ (r : Submission) (rs : List Submission),
      P r → Q rs → Q (r :: rs)) :
    (∀ t, P t) ∧ ∀ rs, Q rs := by
  have hP : ∀ t, P t := fun t => Submission.rec hnode hnil hcons t
  exact ⟨hP, fun rs =>
    List.rec hnil (fun r rs' ih => hcons r rs' (hP r) ih) rs⟩

/-- Mutual induction for `SubmissionAnalysis` and its child lists. -/
theorem analysis_mutual_induction {P : SubmissionAnalysis → Prop}
    {Q : List SubmissionAnalysis → Prop}
    (hmk : ∀ (a : Analysis) (cs : List SubmissionAnalysis),
      Q cs → P (.mk a cs))
    (hnil : Q [])
    (hcons : ∀ (c : SubmissionAnalysis) (cs : List SubmissionAnalysis),
      P c → Q cs → Q (c :: cs)) :
    (∀ t, P t) ∧ ∀ cs, Q cs := by
  have hP : ∀ t, P t := fun t => SubmissionAnalysis.rec hmk hnil hcons t
  exact ⟨hP, fun cs =>
    List.rec hnil (fun c cs' ih => hcons c cs' (hP c) ih) cs⟩

/-- The post-order flattening visits each node once: its length is the node
count `SubmissionAnalysis.size` of the tree. -/
theorem traverse_length (f : SubmissionAnalysis → α) :
    (∀ t, (traverse f t).length = t.size) ∧
      ∀ cs, (traverseList f cs).length = SubmissionAnalysis.sizeList cs := by
  apply analysis_mutual_induction
  · intro a cs ih
    simp [traverse, SubmissionAnalysis.size, ih]
  · simp [traverseList, SubmissionAnalysis.sizeList]
  · intro c cs ihc ihcs
    simp [traverseList, SubmissionAnalysis.sizeList, ihc, ihcs]

/-- When every classification succeeds, `analyze_submission` succeeds on every
tree, the counter increments equal the result tree's node count, and — when
additionally every node's content is non-empty — the result's node count
equals `Submission.size` of the input. -/
theorem analyzeAux_allOk (f : String → Except AnalysisError Analysis)
    (hf : ∀ s, (f s).isOk = true) :
    (∀ t : Submission, ∃ a, analyzeSubmissionAux f t = (.ok a, a.size) ∧
      (t.allNonEmpty = true → a.size = t.size)) ∧
    ∀ rs : List Submission, ∃ cs,
      analyzeChildrenAux f rs = (cs, SubmissionAnalysis.sizeList cs) ∧
        (Submission.allNonEmptyList rs = true →
          SubmissionAnalysis.sizeList cs = Submission.sizeList rs) := by
  apply submission_mutual_induction
  · intro c s rs ih
    obtain ⟨cs, hcs, hsz⟩ := ih
    have hfc := hf c
    cases hc : f c with
    | error e => rw [hc] at hfc; simp [Except.isOk, Except.toBool] at hfc
    | ok a =>
      refine ⟨.mk a cs, ?_, ?_⟩
      · simp [analyzeSubmissionAux, hcs, hc, SubmissionAnalysis.size]
      · intro hne
        simp only [Submission.allNonEmpty, Bool.and_eq_true,
          Bool.not_eq_true', decide_eq_false_iff_not] at hne
        simp [SubmissionAnalysis.size, Submission.size, hsz hne.2,
          if_neg hne.1, Nat.add_comm]
  · exact ⟨[], by simp [analyzeChildrenAux, SubmissionAnalysis.sizeList],
      by simp [SubmissionAnalysis.sizeList, Submission.sizeList]⟩
  · intro r rs ihr ihrs
    obtain ⟨a, ha, hasz⟩ := ihr
    obtain ⟨cs, hcs, hsz⟩ := ihrs
    by_cases hrc : r.content = ""
    · refine ⟨cs, ?_, ?_⟩
      · simp [analyzeChildrenAux, hcs, hrc]
      · intro hne
        exfalso
        obtain ⟨c, s, rrs⟩ := r
        simp only [Submission.content] at hrc
        simp [Submission.allNonEmptyList, Submission.allNonEmpty, hrc] at hne
    · refine ⟨a :: cs, ?_, ?_⟩
      · simp [analyzeChildrenAux, hcs, hrc, ha, SubmissionAnalysis.sizeList]
      · intro hne
        simp only [Submission.allNonEmptyList, Bool.and_eq_true] at hne
        simp [SubmissionAnalysis.sizeList, Submission.sizeList,
          hasz hne.1, hsz hne.2]

/-- The children pipeline drops an erroring reply without affecting the other
children: the parent's child list is as if the reply were absent. -/
theorem analyzeChildrenAux_drop_error
    (f : String → Except AnalysisError Analysis) (r : Submission)
    (e : AnalysisError) (hr : (analyzeSubmissionAux f r).1 = .error e) :
    ∀ rs₁ rs₂ : List Submission,
      (analyzeChildrenAux f (rs₁ ++ r :: rs₂)).1 =
        (analyzeChildrenAux f (rs₁ ++ rs₂)).1 := by
  intro rs₁
  induction rs₁ with
  | nil =>
    intro rs₂
    by_cases hrc : r.content = ""
    · simp [analyzeChildrenAux, hrc]
    · cases ha : analyzeSubmissionAux f r with
      | mk res n =>
        rw [ha] at hr
        simp only at hr
        subst hr
        simp [analyzeChildrenAux, hrc, ha]
  | cons head tail ih =>
    intro rs₂
    by_cases hhc : head.content = ""
    · simp [analyzeChildrenAux, hhc, ih rs₂]
    · cases hh : analyzeSubmissionAux f head with
      | mk res n =>
        cases res with
        | ok a => simp [analyzeChildrenAux, hhc, hh, ih rs₂]
        | error e' => simp [analyzeChildrenAux, hhc, hh, ih rs₂]

/-! ## Tree analyzer claims -/

/-- **C4, counterexample.** On the single-node tree with empty text no
classification fails, yet `Submission::size` is 0 while the flattening of the
analysis result has length 1: `analyze_submission` still produces a root node
for an empty-text root (the empty-text filter applies only to children). -/
theorem size_mismatch_on_empty_root :
    Submission.size (.node "" 0 []) = 0 ∧
    analyzeSubmission (fun _ => .ok Analysis.default) (.node "" 0 []) =
      .ok (.mk Analysis.default []) ∧
    (traverse SubmissionAnalysis.analysis
      (.mk Analysis.default [])).length = 1 := by
  refine ⟨by simp [Submission.size, Submission.sizeList], ?_, ?_⟩
  · simp [analyzeSubmission, analyzeSubmissionAux, analyzeChildrenAux]
  · simp [traverse, traverseList]

/-- **C4, amended.** When every node of the input tree has non-empty text and
no classification fails, `Submission::size` equals the length of the
flattening (`traverse`) of the `analyze_submission` result, i.e. the node
count of the result tree. -/
theorem size_eq_flatten_length (f : String → Except AnalysisError Analysis)
    (t : Submission) (hf : ∀ s, (f s).isOk = true)
    (hne : t.allNonEmpty = true) :
    ∃ a, analyzeSubmission f t = .ok a ∧
      (traverse SubmissionAnalysis.analysis a).length = t.size := by
  obtain ⟨a, ha, hsz⟩ := (analyzeAux_allOk f hf).1 t
  exact ⟨a, by simp [analyzeSubmission, ha],
    by rw [(traverse_length SubmissionAnalysis.analysis).1 a, hsz hne]⟩

/-- Witness for the amended C4: a two-node tree with non-empty texts and an
all-succeeding classifier. -/
theorem size_eq_flatten_length_witness :
    ∃ a, analyzeSubmission (fun _ => .ok Analysis.default)
        (.node "x" 0 [.node "y" 0 []]) = .ok a ∧
      (traverse SubmissionAnalysis.analysis a).length =
        Submission.size (.node "x" 0 [.node "y" 0 []]) := by
  obtain ⟨a, ha, hl⟩ := size_eq_flatten_length (fun _ => .ok Analysis.default)
    (.node "x" 0 [.node "y" 0 []]) (fun _ => rfl)
    (by simp [Submission.allNonEmpty, Submission.allNonEmptyList])
  exact ⟨a, ha, hl⟩

/-- **C5.** A child whose recursive analysis errors is silently omitted: the
parent's result is the same as if the child were absent, and the parent still
succeeds whenever its own classification succeeds.  An error of the node's
own classification, by contrast, is returned for the whole subtree. -/
theorem child_error_omitted_own_error_propagated
    (f : String → Except AnalysisError Analysis) (c : String) (s : ℤ)
    (rs₁ rs₂ : List Submission) (r : Submission) (e : AnalysisError)
    (hr : analyzeSubmission f r = .error e) :
    analyzeSubmission f (.node c s (rs₁ ++ r :: rs₂)) =
      analyzeSubmission f (.node c s (rs₁ ++ rs₂)) ∧
    ((f c).isOk = true →
      (analyzeSubmission f (.node c s (rs₁ ++ r :: rs₂))).isOk = true) ∧
    ∀ e', f c = .error e' →
      analyzeSubmission f (.node c s (rs₁ ++ r :: rs₂)) = .error e' := by
  have hdrop := analyzeChildrenAux_drop_error f r e hr rs₁ rs₂
  refine ⟨?_, ?_, ?_⟩
  · cases hc : f c with
    | error e' => simp [analyzeSubmission, analyzeSubmissionAux, hc]
    | ok a => simp [analyzeSubmission, analyzeSubmissionAux, hc, hdrop]
  · intro hok
    cases hc : f c with
    | error e' => rw [hc] at hok; simp [Except.isOk, Except.toBool] at hok
    | ok a => simp [analyzeSubmission, analyzeSubmissionAux, hc,
        Except.isOk, Except.toBool]
  · intro e' hc
    simp [analyzeSubmission, analyzeSubmissionAux, hc]

/-- Witness for C5: the child `"bad"` fails classification under the given
classifier, the parent `"good"` still succeeds and equals the analysis of the
tree without that child. -/
theorem child_error_omitted_witness :
    (analyzeSubmission
        (fun s => if s = "bad"
          then .error (.LabelError ("unknown label: " ++ "bad"))
          else .ok Analysis.default)
        (.node "good" 0 ([] ++ Submission.node "bad" 0 [] :: [])) =
      analyzeSubmission
        (fun s => if s = "bad"
          then .error (.LabelError ("unknown label: " ++ "bad"))
          else .ok Analysis.default)
        (.node "good" 0 ([] ++ []))) ∧
    (analyzeSubmission
        (fun s => if s = "bad"
          then .error (.LabelError ("unknown label: " ++ "bad"))
          else .ok Analysis.default)
        (.node "good" 0 ([] ++ Submission.node "bad" 0 [] :: []))).isOk
      = true := by
  have h := child_error_omitted_own_error_propagated
    (fun s => if s = "bad"
      then .error (.LabelError ("unknown label: " ++ "bad"))
      else .ok Analysis.default)
    "good" 0 [] [] (.node "bad" 0 []) (.LabelError ("unknown label: " ++ "bad"))
    (by simp [analyzeSubmission, analyzeSubmissionAux, analyzeChildrenAux])
  exact ⟨h.1, h.2.1 (by simp [Except.isOk, Except.toBool])⟩

/-- **C7, counterexample.** A successful run does *not* increment the counter
once per result-tree node when a child fails: on the tree
`"x" → "y" → "z"` with a classifier failing exactly on `"y"`, the run
succeeds with a one-node result tree, yet the counter reads 2 — the
grandchild `"z"`'s increment happened before its parent `"y"` failed and was
dropped. -/
theorem counter_overcounts_dropped_subtree :
    analyzeSubmission
        (fun s => if s = "y" then .error (.LabelError ("unknown label: " ++ "y"))
          else .ok Analysis.default)
        (.node "x" 0 [.node "y" 0 [.node "z" 0 []]]) =
      .ok (.mk Analysis.default []) ∧
    SubmissionAnalysis.size (.mk Analysis.default []) = 1 ∧
    analyzedComments
        (fun s => if s = "y" then .error (.LabelError ("unknown label: " ++ "y"))
          else .ok Analysis.default)
        (.node "x" 0 [.node "y" 0 [.node "z" 0 []]]) = 2 := by
  refine ⟨?_, by simp [SubmissionAnalysis.size, SubmissionAnalysis.sizeList], ?_⟩
  · simp [analyzeSubmission, analyzeSubmissionAux, analyzeChildrenAux,
      Submission.content]
  · simp [analyzedComments, analyzeSubmissionAux, analyzeChildrenAux,
      Submission.content]

/-- **C7, amended.** The counter is incremented once per node whose own
classification was performed and succeeded — including nodes of subtrees
later dropped because an ancestor failed.  When no classification fails, a
run started at counter 0 therefore ends with the counter reading exactly the
result tree's node count `K`. -/
theorem counter_eq_result_size (f : String → Except AnalysisError Analysis)
    (t : Submission) (hf : ∀ s, (f s).isOk = true) :
    ∃ a, analyzeSubmission f t = .ok a ∧
      analyzedComments f t = a.size := by
  obtain ⟨a, ha, -⟩ := (analyzeAux_allOk f hf).1 t
  exact ⟨a, by simp [analyzeSubmission, ha], by simp [analyzedComments, ha]⟩

/-- Witness for the amended C7: an all-succeeding classifier on a three-node
tree. -/
theorem counter_eq_result_size_witness :
    ∃ a, analyzeSubmission (fun _ => .ok Analysis.default)
        (.node "x" 0 [.node "y" 0 [], .node "z" 0 []]) = .ok a ∧
      analyzedComments (fun _ => .ok Analysis.default)
        (.node "x" 0 [.node "y" 0 [], .node "z" 0 []]) = a.size :=
  counter_eq_result_size (fun _ => .ok Analysis.default)
    (.node "x" 0 [.node "y" 0 [], .node "z" 0 []]) (fun _ => rfl)

/-! ## Divisiveness -/

/-- The counting loop of `divisiveness` computes the two `countP`s: children
with agreement strictly above 1/2 and strictly below 1/2 (exact ties counted
in neither). -/
theorem divisiveness_foldl_counts (l : List SubmissionAnalysis) :
    ∀ p n : ℤ,
      l.foldl (fun (pn : ℤ × ℤ) child =>
          if child.analysis.attitude.agreement > 1/2 then (pn.1 + 1, pn.2)
          else if child.analysis.attitude.agreement < 1/2 then (pn.1, pn.2 + 1)
          else pn) (p, n) =
        (p + l.countP
            (fun c => decide ((1:ℚ)/2 < c.analysis.attitude.agreement)),
         n + l.countP
            (fun c => decide (c.analysis.attitude.agreement < 1/2))) := by
  induction l with
  | nil => intro p n; simp
  | cons c l ih =>
    intro p n
    by_cases hgt : (1:ℚ)/2 < c.analysis.attitude.agreement
    · have hlt : ¬c.analysis.attitude.agreement < 1/2 := by
        intro h; exact absurd (lt_trans h hgt) (lt_irrefl _)
      simp only [List.foldl_cons, List.countP_cons, if_pos hgt, hlt, hgt,
        decide_True, decide_False, if_true, if_false, gt_iff_lt, ih,
        Prod.mk.injEq]
      constructor <;> push_cast <;> ring
    · by_cases hlt : c.analysis.attitude.agreement < 1/2
      · simp only [List.foldl_cons, List.countP_cons, gt_iff_lt, if_neg hgt,
          if_pos hlt, hgt, hlt, decide_True, decide_False, if_true, if_false,
          ih, Prod.mk.injEq]
        constructor <;> push_cast <;> ring
      · simp only [List.foldl_cons, List.countP_cons, gt_iff_lt, if_neg hgt,
          if_neg hlt, hgt, hlt, decide_False, if_false, ih, Prod.mk.injEq]
        simp

/-- **C8.** For every node, with `agree` the number of children whose
attitude's `agreement()` is strictly above 1/2 and `disagree` the number
strictly below (ties at exactly 1/2 in neither): divisiveness is 0 when
`agree + disagree = 0`, and otherwise `1 - |agree - disagree| / (agree +
disagree)`; it always lies in `[0, 1]`. -/
theorem divisiveness_formula (s : SubmissionAnalysis) :
    let agree : ℕ := s.children.countP
      (fun c => decide ((1:ℚ)/2 < c.analysis.attitude.agreement))
    let disagree : ℕ := s.children.countP
      (fun c => decide (c.analysis.attitude.agreement < 1/2))
    (agree + disagree = 0 → s.divisiveness = 0) ∧
    (agree + disagree ≠ 0 →
      s.divisiveness =
        1 - |(agree : ℚ) - (disagree : ℚ)| / ((agree : ℚ) + (disagree : ℚ))) ∧
    0 ≤ s.divisiveness ∧ s.divisiveness ≤ 1 := by
  intro agree disagree
  have hunfold : s.divisiveness =
      if ((agree : ℤ) + (disagree : ℤ)) = 0 then 0
      else 1 - |((agree : ℤ) : ℚ) - ((disagree : ℤ) : ℚ)| /
        (((agree : ℤ) + (disagree : ℤ) : ℤ) : ℚ) := by
    unfold SubmissionAnalysis.divisiveness
    rw [divisiveness_foldl_counts s.children 0 0]
    simp only [zero_add]
  have hcast : ((agree : ℤ) + (disagree : ℤ) = 0) ↔ (agree + disagree = 0) := by
    omega
  by_cases h0 : agree + disagree = 0
  · have : s.divisiveness = 0 := by
      rw [hunfold, if_pos (hcast.mpr h0)]
    refine ⟨fun _ => this, fun hne => absurd h0 hne, ?_, ?_⟩ <;>
      simp [this]
  · have hpos : (0 : ℚ) < (agree : ℚ) + (disagree : ℚ) := by
      have : 0 < agree + disagree := Nat.pos_of_ne_zero h0
      exact_mod_cast this
    have hform : s.divisiveness =
        1 - |(agree : ℚ) - (disagree : ℚ)| /
          ((agree : ℚ) + (disagree : ℚ)) := by
      rw [hunfold, if_neg (fun hc => h0 (hcast.mp hc))]
      norm_num
    have habs : |(agree : ℚ) - (disagree : ℚ)| ≤
        (agree : ℚ) + (disagree : ℚ) := by
      rcases abs_cases ((agree : ℚ) - (disagree : ℚ)) with ⟨heq, -⟩ | ⟨heq, -⟩ <;>
        rw [heq] <;>
        [linarith [Nat.cast_nonneg (α := ℚ) disagree];
         linarith [Nat.cast_nonneg (α := ℚ) agree]]
    refine ⟨fun hc => absurd hc h0, fun _ => hform, ?_, ?_⟩
    · rw [hform]
      have : |(agree : ℚ) - (disagree : ℚ)| /
          ((agree : ℚ) + (disagree : ℚ)) ≤ 1 :=
        (div_le_one hpos).mpr habs
      linarith
    · rw [hform]
      have : 0 ≤ |(agree : ℚ) - (disagree : ℚ)| /
          ((agree : ℚ) + (disagree : ℚ)) :=
        div_nonneg (abs_nonneg _) (le_of_lt hpos)
      linarith

end RedditAnalysis
